import Mathlib

/-!
Shallow embedding of the BL1/BL2 platform-setup modules of this
arm-trusted-firmware excerpt: the hikey960 BL1 platform file
(plat/hisilicon/hikey960/hikey960_bl1_setup.c) and the LCB BL2 platform
file (plat/lcb/bl2_plat_setup.c), together with theorems settling the
specification claims.

Hardware register addresses, bit masks and the extents of the linker
regions come from headers outside the excerpt; they are carried as
explicit parameters, so every theorem holds for all of their values
(or under the stated linker invariants).
-/

set_option autoImplicit false

namespace ATF

/-- Extents of trusted RAM: the `meminfo_t` record of `bl_common.h`
(total base/size, free base/size), as used by both platform files. -/
structure meminfo where
  total_base : Nat
  total_size : Nat
  free_base : Nat
  free_size : Nat
deriving Repr, DecidableEq

/-! ## Boot-mode classification (hikey960_bl1_setup.c lines 50-54, 180-197) -/

/-- `BOOT_MODE_RECOVERY = 0` from the anonymous enum in hikey960_bl1_setup.c. -/
def BOOT_MODE_RECOVERY : Nat := 0

/-- `BOOT_MODE_NORMAL = 1` from the anonymous enum in hikey960_bl1_setup.c. -/
def BOOT_MODE_NORMAL : Nat := 1

/-- `BOOT_MODE_MASK = 1` from the anonymous enum in hikey960_bl1_setup.c. -/
def BOOT_MODE_MASK : Nat := 1

/-- The two image identifiers the boot-mode switch can return.  Their
numeric values live in `bl_common.h`, outside this excerpt; only their
identity matters here, so they are symbolic constructors. -/
inductive ImageRef where
  | BL2U_IMAGE_ID
  | BL2_IMAGE_ID
deriving Repr, DecidableEq

/-- Result of `bl1_plat_get_next_image_id`: either the function returns an
image id, or it reaches the `default:` arm, logs a warning and never
returns (the `panic()` call). -/
inductive BootModeResult where
  | ret (id : ImageRef)
  | panics
deriving Repr, DecidableEq

/-- The `switch (mode & BOOT_MODE_MASK)` body of
`bl1_plat_get_next_image_id`, as a function of the already-masked value:
case `BOOT_MODE_RECOVERY` yields `BL2U_IMAGE_ID`, case `BOOT_MODE_NORMAL`
yields `BL2_IMAGE_ID`, and the `default:` arm halts. -/
def boot_mode_switch (masked : Nat) : BootModeResult :=
  if masked = BOOT_MODE_RECOVERY then .ret .BL2U_IMAGE_ID
  else if masked = BOOT_MODE_NORMAL then .ret .BL2_IMAGE_ID
  else .panics

/-- `bl1_plat_get_next_image_id`, as a function of the value `mode` read
from the boot-mode register (`SCTRL_BAK_DATA0`): it masks the value with
`BOOT_MODE_MASK` and dispatches through the switch. -/
def bl1_plat_get_next_image_id (mode : Nat) : BootModeResult :=
  boot_mode_switch (mode &&& BOOT_MODE_MASK)

/-! ## Image-descriptor lookup (hikey960_bl1_setup.c lines 199-211) -/

/-- `INVALID_IMAGE_ID` sentinel from `bl_common.h` (`(0xFFFFFFFF)`). The
lookup proofs do not depend on the numeric value. -/
def INVALID_IMAGE_ID : Nat := 0xffffffff

/-- One entry of the externally defined `bl1_tbbr_image_descs` table: an
image id plus the rest of the descriptor, abstracted as an opaque payload. -/
structure image_desc where
  image_id : Nat
  payload : Nat
deriving Repr, DecidableEq

/-- `bl1_plat_get_image_desc`: linear scan of the descriptor table in index
order; the loop stops at the first entry whose id is `INVALID_IMAGE_ID`
(returning NULL, here `none`), and otherwise returns the first entry whose
id equals the argument.  The table is the list of array entries. -/
def bl1_plat_get_image_desc (descs : List image_desc) (image_id : Nat) :
    Option image_desc :=
  match descs with
  | [] => none
  | d :: rest =>
    if d.image_id = INVALID_IMAGE_ID then none
    else if d.image_id = image_id then some d
    else bl1_plat_get_image_desc rest image_id

/-! ## BL1 memory layout (hikey960_bl1_setup.c lines 74-105) -/

/-- State of the BL1 platform module: whether/how the console was
initialized, the static `bl1_tzram_layout` record, and a byte view of the
rest of memory. -/
structure BL1State where
  console : Option (Nat × Nat × Nat)
  bl1_tzram_layout : meminfo
  mem : Nat → Nat

/-- Modelled from the spec: the external helper `reserve_mem` (declared in
`bl_common.h`, defined outside this excerpt) that `bl1_early_platform_setup`
calls.  Per the spec it shrinks the free region `[free_base, free_base +
free_size)` so as to exclude the reserved block `[addr, addr + size)`, with
the free size decreasing by exactly the reserved size: when the block sits
at the bottom of the free region the free base advances past it, otherwise
the free base is kept and the size shrinks (the block being at the top). -/
def reserve_mem (free_base free_size addr size : Nat) : Nat × Nat :=
  if addr = free_base then (free_base + size, free_size - size)
  else (free_base, free_size - size)

/-- `bl1_early_platform_setup`: initializes the console, sets the total
extents of `bl1_tzram_layout` to the whole BL1 RW region, seeds the free
extents with the same region and then reserves BL1's own footprint
`[bl1_ram_base, bl1_ram_limit)` (of size `bl1_size = BL1_RAM_LIMIT -
BL1_RAM_BASE`) out of it via `reserve_mem`. -/
def bl1_early_platform_setup
    (console_base uart_clk baudrate : Nat)
    (bl1_rw_base bl1_rw_size bl1_ram_base bl1_ram_limit : Nat)
    (st : BL1State) : BL1State :=
  let bl1_size := bl1_ram_limit - bl1_ram_base
  let fr := reserve_mem bl1_rw_base bl1_rw_size bl1_ram_base bl1_size
  { st with
    console := some (console_base, uart_clk, baudrate)
    bl1_tzram_layout :=
      { total_base := bl1_rw_base
        total_size := bl1_rw_size
        free_base := fr.1
        free_size := fr.2 } }

/-- `bl1_plat_sec_mem_layout`: returns the address of the static
`bl1_tzram_layout` record (`layout_addr`, fixed at link time) and touches
nothing. -/
def bl1_plat_sec_mem_layout (layout_addr : Nat) (st : BL1State) :
    BL1State × Nat :=
  (st, layout_addr)

/-- `bl1_plat_set_ep_info`: empty body. -/
def bl1_plat_set_ep_info (st : BL1State) (image_id ep_info : Nat) : BL1State :=
  st

/-- Iterated calls to a state-passing accessor, collecting the returned
pointers; used to state purity of the `sec_mem_layout` accessors over any
sequence of calls. -/
def callSeq {σ : Type} (f : σ → σ × Nat) : σ → Nat → σ × List Nat
  | st, 0 => (st, [])
  | st, n + 1 =>
    let r := f st
    let rest := callSeq f r.1 n
    (rest.1, r.2 :: rest.2)

/-! ## BL1 hardware bring-up (hikey960_bl1_setup.c lines 122-174) -/

/-- One observable hardware action performed during BL1 platform setup. -/
inductive Action where
  | write (addr val : Nat)
  | clrbits (addr bits : Nat)
  | read (addr : Nat)
  | sp804_init (base clkmult clkdiv : Nat)
  | ufs_setup (reg_base desc_base desc_size flags : Nat)
  | io_setup
deriving Repr, DecidableEq

/-- `hikey960_clk_init`: a single 32-bit write of `0xf0001000` to the
clock-divider register `CRG_REG_BASE + CRG_CLKDIV3_OFFSET`. -/
def hikey960_clk_init (crg_reg_base crg_clkdiv3_offset : Nat) : List Action :=
  [.write (crg_reg_base + crg_clkdiv3_offset) 0xf0001000]

/-- `hikey960_pmu_init`: clears the `NP_XO_ABB_DIG` bit in the PMU
`CLK_TOP_CTRL7` register. -/
def hikey960_pmu_init (pmu_ssi0_reg_base ctrl7_offset np_xo_abb_dig : Nat) :
    List Action :=
  [.clrbits (pmu_ssi0_reg_base + ctrl7_offset) np_xo_abb_dig]

/-- The first do/while poll loop of `hikey960_timer_init`: repeatedly read
the reset-status register at `addr` until `data & bit` is zero.  `reads k`
is the value the k-th read returns; `fuel` bounds how many iterations we
unfold (the C loop itself is unbounded).  Returns the reads performed and
whether the loop exited within `fuel` iterations. -/
def poll_clear (addr bit : Nat) (reads : Nat → Nat) (k : Nat) :
    Nat → List Action × Bool
  | 0 => ([], false)
  | fuel + 1 =>
    if reads k &&& bit = 0 then ([.read addr], true)
    else
      let r := poll_clear addr bit reads (k + 1) fuel
      (.read addr :: r.1, r.2)

/-- The second do/while poll loop of `hikey960_timer_init`: repeatedly read
the enable-status register at `addr` until `data & bit` is nonzero. -/
def poll_set (addr bit : Nat) (reads : Nat → Nat) (k : Nat) :
    Nat → List Action × Bool
  | 0 => ([], false)
  | fuel + 1 =>
    if reads k &&& bit = 0 then
      let r := poll_set addr bit reads (k + 1) fuel
      (.read addr :: r.1, r.2)
    else ([.read addr], true)

/-- Register addresses and the bit used by `hikey960_timer_init`; the
values come from `hi3660.h`, outside this excerpt. -/
structure TimerRegs where
  crg_reg_base : Nat
  perrstdis1 : Nat
  perrststat1 : Nat
  peren1 : Nat
  perstat1 : Nat
  timer9_bit : Nat
  timer9_reg_base : Nat
deriving Repr, DecidableEq

/-- `hikey960_timer_init`: write `PERI_TIMER9_BIT` to `CRG_PERRSTDIS1`
(unreset TIMER9), poll `CRG_PERRSTSTAT1` until the bit clears, write the
bit to `CRG_PEREN1` (enable TIMER9), poll `CRG_PERSTAT1` until the bit
sets, then call `sp804_timer_init(TIMER9_REG_BASE, 15625, 512)`.
`rst_reads`/`stat_reads` give the successive values of the two status
registers; `fuel` bounds the unfolding of each unbounded poll loop.
Returns the action trace performed plus whether the function ran to
completion within the fuel. -/
def hikey960_timer_init (r : TimerRegs) (rst_reads stat_reads : Nat → Nat)
    (fuel : Nat) : List Action × Bool :=
  let w1 : List Action := [.write (r.crg_reg_base + r.perrstdis1) r.timer9_bit]
  let p1 := poll_clear (r.crg_reg_base + r.perrststat1) r.timer9_bit rst_reads 0 fuel
  if p1.2 then
    let w2 : List Action := [.write (r.crg_reg_base + r.peren1) r.timer9_bit]
    let p2 := poll_set (r.crg_reg_base + r.perstat1) r.timer9_bit stat_reads 0 fuel
    if p2.2 then
      (w1 ++ p1.1 ++ w2 ++ p2.1 ++ [.sp804_init r.timer9_reg_base 15625 512], true)
    else (w1 ++ p1.1 ++ w2 ++ p2.1, false)
  else (w1 ++ p1.1, false)

/-- `hikey960_ufs_init`: zeroes a local `ufs_params_t`, fills in the
register base, descriptor base/size and the `UFS_FLAGS_SKIPINIT` flag, and
hands it to the external `ufs_init` driver; modelled as one action
recording those parameters. -/
def hikey960_ufs_init (ufs_reg_base desc_base desc_size skipinit_flag : Nat) :
    List Action :=
  [.ufs_setup ufs_reg_base desc_base desc_size skipinit_flag]

/-- Which of the five bring-up steps of `bl1_platform_setup` an action
belongs to. -/
inductive Step where
  | clk
  | pmu
  | timer
  | ufs
  | io
deriving Repr, DecidableEq

/-- Position of each step in the call sequence of `bl1_platform_setup`. -/
def stepRank : Step → Nat
  | .clk => 0
  | .pmu => 1
  | .timer => 2
  | .ufs => 3
  | .io => 4

/-- Ordering between tagged actions: the earlier call comes first. -/
def stepLE (x y : Step × Action) : Prop :=
  stepRank x.1 ≤ stepRank y.1

instance (x y : Step × Action) : Decidable (stepLE x y) := by
  unfold stepLE; infer_instance

/-- Tag every action of a sub-initializer with the step it belongs to. -/
def tagged (s : Step) (l : List Action) : List (Step × Action) :=
  l.map (fun a => (s, a))

/-- All register parameters used by `bl1_platform_setup`; values come from
`hi3660.h` / `hikey960_def.h`, outside this excerpt. -/
structure PlatformRegs where
  timer : TimerRegs
  crg_clkdiv3_offset : Nat
  pmu_ssi0_reg_base : Nat
  pmu_ctrl7_offset : Nat
  np_xo_abb_dig : Nat
  ufs_reg_base : Nat
  ufs_desc_base : Nat
  ufs_desc_size : Nat
  ufs_skipinit : Nat
deriving Repr, DecidableEq

/-- `bl1_platform_setup`: calls, in order, `hikey960_clk_init`,
`hikey960_pmu_init`, `hikey960_timer_init`, `hikey960_ufs_init` and
`hikey960_io_setup` (the last is defined outside this excerpt and modelled
as the single action `io_setup`).  If the timer bring-up never completes
(a poll loop spins past the fuel) the later steps are never reached.
Returns the step-tagged action trace and whether setup ran to completion. -/
def bl1_platform_setup (r : PlatformRegs) (rst_reads stat_reads : Nat → Nat)
    (fuel : Nat) : List (Step × Action) × Bool :=
  let c := tagged .clk (hikey960_clk_init r.timer.crg_reg_base r.crg_clkdiv3_offset)
  let p := tagged .pmu (hikey960_pmu_init r.pmu_ssi0_reg_base r.pmu_ctrl7_offset r.np_xo_abb_dig)
  let t := hikey960_timer_init r.timer rst_reads stat_reads fuel
  if t.2 then
    (c ++ p ++ tagged .timer t.1
       ++ tagged .ufs (hikey960_ufs_init r.ufs_reg_base r.ufs_desc_base
            r.ufs_desc_size r.ufs_skipinit)
       ++ tagged .io [.io_setup], true)
  else (c ++ p ++ tagged .timer t.1, false)

/-! ## LCB BL2 module (plat/lcb/bl2_plat_setup.c) -/

/-- State of the LCB BL2 platform module: console, the static
`bl2_tzram_layout` record and a byte view of the rest of memory (covering
everything reachable through the hook pointer arguments). -/
structure LCBState where
  console : Option (Nat × Nat × Nat)
  bl2_tzram_layout : meminfo
  mem : Nat → Nat

/-- `bl2_plat_sec_mem_layout`: returns the address of the static
`bl2_tzram_layout` record and touches nothing. -/
def bl2_plat_sec_mem_layout (layout_addr : Nat) (st : LCBState) :
    LCBState × Nat :=
  (st, layout_addr)

/-- Modelled from the spec: the layout of the statically allocated
aggregate `bl31_params_mem` of type `bl2_to_bl31_params_mem_t` (the type
is defined outside this excerpt).  `size` is `sizeof(bl2_to_bl31_params_mem_t)`;
the two offsets locate the `bl31_params` and `bl31_ep_info` sub-fields
inside the aggregate. -/
structure ParamsMemLayout where
  size : Nat
  bl31_params_off : Nat
  bl31_ep_info_off : Nat
deriving Repr, DecidableEq

/-- `memset(&bl31_params_mem, 0, size)` over the byte view of the
aggregate (bytes indexed from the start of the aggregate). -/
def memset_zero (mem : Nat → Nat) (size : Nat) : Nat → Nat :=
  fun a => if a < size then 0 else mem a

/-- `bl2_plat_get_bl31_params`: zeroes the whole static aggregate and
returns a pointer to its `bl31_params` sub-field.  The byte view of the
aggregate is passed and returned explicitly. -/
def bl2_plat_get_bl31_params (L : ParamsMemLayout) (mem : Nat → Nat) :
    (Nat → Nat) × Nat :=
  (memset_zero mem L.size, L.bl31_params_off)

/-- `bl2_plat_get_bl31_ep_info`: returns a pointer to the `bl31_ep_info`
sub-field of the aggregate, with no mutation. -/
def bl2_plat_get_bl31_ep_info (L : ParamsMemLayout) (mem : Nat → Nat) :
    (Nat → Nat) × Nat :=
  (mem, L.bl31_ep_info_off)

/-- `bl2_early_platform_setup`: initializes the console
(`console_init(PL011_UART0_BASE, PL011_UART0_CLK_IN_HZ, PL011_BAUDRATE)`)
and nothing else; the `mem_layout` argument is not consulted. -/
def bl2_early_platform_setup (uart0_base uart0_clk baudrate : Nat)
    (st : LCBState) (mem_layout : meminfo) : LCBState :=
  { st with console := some (uart0_base, uart0_clk, baudrate) }

/-- `bl2_platform_setup`: empty body. -/
def bl2_platform_setup (st : LCBState) : LCBState := st

/-- `bl2_plat_flush_bl31_params`: empty body. -/
def bl2_plat_flush_bl31_params (st : LCBState) : LCBState := st

/-- `bl2_plat_arch_setup`: empty body. -/
def bl2_plat_arch_setup (st : LCBState) : LCBState := st

/-- `bl2_plat_get_bl30_meminfo`: empty body; the pointer argument is the
address of the caller's `meminfo_t`. -/
def bl2_plat_get_bl30_meminfo (st : LCBState) (bl30_meminfo : Nat) : LCBState :=
  st

/-- `bl2_plat_handle_bl30`: fixed `return 0`, no state change. -/
def bl2_plat_handle_bl30 (st : LCBState) (bl30_image_info : Nat) :
    LCBState × Int :=
  (st, 0)

/-- `bl2_plat_set_bl31_ep_info`: empty body. -/
def bl2_plat_set_bl31_ep_info (st : LCBState)
    (bl31_image_info bl31_ep_info : Nat) : LCBState := st

/-- `bl2_plat_set_bl32_ep_info`: empty body. -/
def bl2_plat_set_bl32_ep_info (st : LCBState)
    (bl32_image_info bl32_ep_info : Nat) : LCBState := st

/-- `bl2_plat_set_bl33_ep_info`: empty body. -/
def bl2_plat_set_bl33_ep_info (st : LCBState)
    (image bl33_ep_info : Nat) : LCBState := st

/-- `bl2_plat_get_bl32_meminfo`: empty body. -/
def bl2_plat_get_bl32_meminfo (st : LCBState) (bl32_meminfo : Nat) : LCBState :=
  st

/-- `bl2_plat_get_bl33_meminfo`: empty body. -/
def bl2_plat_get_bl33_meminfo (st : LCBState) (bl33_meminfo : Nat) : LCBState :=
  st

/-! ## Helper lemmas -/

/-- Iterating a state-passing accessor that leaves the state alone and
always returns the same pointer yields the original state and a constant
list of pointers. -/
theorem callSeq_const {σ : Type} (f : σ → σ × Nat) (a : Nat)
    (hf : ∀ s, f s = (s, a)) (st : σ) (n : Nat) :
    callSeq f st n = (st, List.replicate n a) := by
  induction n generalizing st with
  | zero => simp [callSeq]
  | succ n ih => simp [callSeq, hf, ih, List.replicate_succ]

/-- The first poll loop exits within `fuel` iterations, starting from the
k-th read, exactly when some read among the next `fuel` sees the bit
cleared. -/
theorem poll_clear_true_iff (addr bit : Nat) (reads : Nat → Nat) (k : Nat) :
    ∀ fuel : Nat, (poll_clear addr bit reads k fuel).2 = true ↔
      ∃ n, n < fuel ∧ reads (k + n) &&& bit = 0 := by
  intro fuel
  induction fuel generalizing k with
  | zero => simp [poll_clear]
  | succ fuel ih =>
    by_cases h : reads k &&& bit = 0
    · constructor
      · intro _
        exact ⟨0, Nat.succ_pos fuel, by simpa using h⟩
      · intro _
        simp [poll_clear, h]
    · constructor
      · intro hl
        have hl2 : (poll_clear addr bit reads (k + 1) fuel).2 = true := by
          simpa [poll_clear, h] using hl
        obtain ⟨n, hn, he⟩ := (ih (k + 1)).mp hl2
        refine ⟨n + 1, by omega, ?_⟩
        have harr : k + (n + 1) = k + 1 + n := by omega
        rw [harr]; exact he
      · rintro ⟨n, hn, he⟩
        match n, hn, he with
        | 0, hn, he => exact absurd (by simpa using he) h
        | m + 1, hn, he =>
          have hl2 : (poll_clear addr bit reads (k + 1) fuel).2 = true := by
            refine (ih (k + 1)).mpr ⟨m, by omega, ?_⟩
            have harr : k + 1 + m = k + (m + 1) := by omega
            rw [harr]; exact he
          simpa [poll_clear, h] using hl2

/-- The second poll loop exits within `fuel` iterations, starting from the
k-th read, exactly when some read among the next `fuel` sees the bit set. -/
theorem poll_set_true_iff (addr bit : Nat) (reads : Nat → Nat) (k : Nat) :
    ∀ fuel : Nat, (poll_set addr bit reads k fuel).2 = true ↔
      ∃ n, n < fuel ∧ reads (k + n) &&& bit ≠ 0 := by
  intro fuel
  induction fuel generalizing k with
  | zero => simp [poll_set]
  | succ fuel ih =>
    by_cases h : reads k &&& bit = 0
    · constructor
      · intro hl
        have hl2 : (poll_set addr bit reads (k + 1) fuel).2 = true := by
          simpa [poll_set, h] using hl
        obtain ⟨n, hn, he⟩ := (ih (k + 1)).mp hl2
        refine ⟨n + 1, by omega, ?_⟩
        have harr : k + (n + 1) = k + 1 + n := by omega
        rw [harr]; exact he
      · rintro ⟨n, hn, he⟩
        match n, hn, he with
        | 0, hn, he => exact absurd (by simpa using h) (by simpa using he)
        | m + 1, hn, he =>
          have hl2 : (poll_set addr bit reads (k + 1) fuel).2 = true := by
            refine (ih (k + 1)).mpr ⟨m, by omega, ?_⟩
            have harr : k + 1 + m = k + (m + 1) := by omega
            rw [harr]; exact he
          simpa [poll_set, h] using hl2
    · constructor
      · intro _
        exact ⟨0, Nat.succ_pos fuel, by simpa using h⟩
      · intro _
        simp [poll_set, h]

/-- `hikey960_timer_init` completes within the fuel exactly when both of
its poll loops do. -/
theorem hikey960_timer_init_true_iff (r : TimerRegs)
    (rst_reads stat_reads : Nat → Nat) (fuel : Nat) :
    (hikey960_timer_init r rst_reads stat_reads fuel).2 = true ↔
      (poll_clear (r.crg_reg_base + r.perrststat1) r.timer9_bit
          rst_reads 0 fuel).2 = true ∧
      (poll_set (r.crg_reg_base + r.perstat1) r.timer9_bit
          stat_reads 0 fuel).2 = true := by
  unfold hikey960_timer_init
  by_cases h1 : (poll_clear (r.crg_reg_base + r.perrststat1) r.timer9_bit
      rst_reads 0 fuel).2 = true <;>
    by_cases h2 : (poll_set (r.crg_reg_base + r.perstat1) r.timer9_bit
        stat_reads 0 fuel).2 = true <;>
      simp [h1, h2]

/-- The unreset write of `hikey960_timer_init` is in its trace whatever
the hardware does. -/
theorem timer_init_trace_has_unreset (r : TimerRegs)
    (rst_reads stat_reads : Nat → Nat) (fuel : Nat) :
    Action.write (r.crg_reg_base + r.perrstdis1) r.timer9_bit ∈
      (hikey960_timer_init r rst_reads stat_reads fuel).1 := by
  unfold hikey960_timer_init
  by_cases h1 : (poll_clear (r.crg_reg_base + r.perrststat1) r.timer9_bit
      rst_reads 0 fuel).2 = true <;>
    by_cases h2 : (poll_set (r.crg_reg_base + r.perstat1) r.timer9_bit
        stat_reads 0 fuel).2 = true <;>
      simp [h1, h2]

/-- A pairwise-total relation holds pairwise on any list. -/
theorem pairwise_trivial {α : Type} (R : α → α → Prop) (h : ∀ a b, R a b) :
    ∀ l : List α, List.Pairwise R l
  | [] => List.Pairwise.nil
  | a :: t => List.Pairwise.cons (fun b _ => h a b) (pairwise_trivial R h t)

/-- Every element of a tagged segment carries the segment's step. -/
theorem mem_tagged_fst {s : Step} {l : List Action} {y : Step × Action}
    (h : y ∈ tagged s l) : y.1 = s := by
  rw [tagged] at h
  obtain ⟨a, ha, rfl⟩ := List.mem_map.mp h
  rfl

/-- Membership in a tagged segment. -/
theorem mem_tagged (s : Step) (a : Action) (l : List Action) (h : a ∈ l) :
    (s, a) ∈ tagged s l := by
  rw [tagged]
  exact List.mem_map.mpr ⟨a, h, rfl⟩

/-- A tagged segment is internally ordered (all its steps are equal). -/
theorem pairwise_stepLE_tagged (s : Step) (l : List Action) :
    List.Pairwise stepLE (tagged s l) := by
  rw [tagged, List.pairwise_map]
  exact pairwise_trivial _ (fun a b => Nat.le_refl _) l

/-- Prepend a tagged segment to an ordered trace whose ranks all dominate
the segment's rank. -/
theorem pairwise_stepLE_tagged_append (s : Step) (l : List Action)
    (rest : List (Step × Action)) (hrest : List.Pairwise stepLE rest)
    (hge : ∀ y ∈ rest, stepRank s ≤ stepRank y.1) :
    List.Pairwise stepLE (tagged s l ++ rest) := by
  refine List.pairwise_append.mpr ⟨pairwise_stepLE_tagged s l, hrest, ?_⟩
  intro x hx y hy
  unfold stepLE
  rw [mem_tagged_fst hx]
  exact hge y hy

/-- Rank lower bound over a tagged segment. -/
theorem rank_lb_tagged (k : Nat) (s : Step) (l : List Action)
    (hs : k ≤ stepRank s) : ∀ y ∈ tagged s l, k ≤ stepRank y.1 := by
  intro y hy
  rw [mem_tagged_fst hy]
  exact hs

/-- Rank lower bound over an appended trace. -/
theorem rank_lb_append (k : Nat) (l1 l2 : List (Step × Action))
    (h1 : ∀ y ∈ l1, k ≤ stepRank y.1) (h2 : ∀ y ∈ l2, k ≤ stepRank y.1) :
    ∀ y ∈ l1 ++ l2, k ≤ stepRank y.1 := by
  intro y hy
  rcases List.mem_append.mp hy with h | h
  · exact h1 y h
  · exact h2 y h

/-! ## Claim theorems -/

/-- Claim C1: `bl1_plat_get_next_image_id` masks the register value to its
low bit and returns `BL2U_IMAGE_ID` when the masked value is 0 and
`BL2_IMAGE_ID` when it is 1, for every register value; and the switch it
dispatches through sends every value outside {0, 1} to the halting
(warn-and-never-return) branch. -/
theorem C1_boot_mode_classification :
    (∀ mode : Nat,
      bl1_plat_get_next_image_id mode =
        .ret (if mode &&& BOOT_MODE_MASK = 0 then .BL2U_IMAGE_ID
              else .BL2_IMAGE_ID)) ∧
    (∀ v : Nat, 2 ≤ v → boot_mode_switch v = .panics) := by
  constructor
  · intro mode
    have h2 : mode &&& BOOT_MODE_MASK = mode % 2 := Nat.and_one_is_mod mode
    have hm : mode % 2 = 0 ∨ mode % 2 = 1 := Nat.mod_two_eq_zero_or_one mode
    rcases hm with h | h <;>
      simp [bl1_plat_get_next_image_id, boot_mode_switch, h2, h,
        BOOT_MODE_RECOVERY, BOOT_MODE_NORMAL]
  · intro v hv
    have h0 : v ≠ BOOT_MODE_RECOVERY := by
      simp only [BOOT_MODE_RECOVERY]; omega
    have h1 : v ≠ BOOT_MODE_NORMAL := by
      simp only [BOOT_MODE_NORMAL]; omega
    simp [boot_mode_switch, h0, h1]

/-- Witness for C1 at concrete inputs: register value 3 masks to 1 and
yields the normal image id, and an injected masked value 2 halts. -/
theorem C1_boot_mode_classification_witness :
    bl1_plat_get_next_image_id 3 = .ret .BL2_IMAGE_ID ∧
    boot_mode_switch 2 = .panics := by
  refine ⟨?_, C1_boot_mode_classification.2 2 (by decide)⟩
  rw [C1_boot_mode_classification.1 3]
  decide

/-- Claim C2: after `bl1_early_platform_setup`, the free region of the BL1
memory-layout record does not overlap the stage footprint
`[bl1_ram_base, bl1_ram_limit)`, and its size is exactly the original
free size minus the reserved size, whenever the footprint lies inside the
RW region and at one of its ends (the linker invariant). -/
theorem C2_free_region_reservation
    (cb uc br bl1_rw_base bl1_rw_size bl1_ram_base bl1_ram_limit : Nat)
    (st : BL1State)
    (hlo : bl1_rw_base ≤ bl1_ram_base)
    (hle : bl1_ram_base ≤ bl1_ram_limit)
    (hhi : bl1_ram_limit ≤ bl1_rw_base + bl1_rw_size)
    (hend : bl1_ram_base = bl1_rw_base ∨
            bl1_ram_limit = bl1_rw_base + bl1_rw_size) :
    (∀ a,
       (bl1_early_platform_setup cb uc br bl1_rw_base bl1_rw_size
          bl1_ram_base bl1_ram_limit st).bl1_tzram_layout.free_base ≤ a →
       a < (bl1_early_platform_setup cb uc br bl1_rw_base bl1_rw_size
          bl1_ram_base bl1_ram_limit st).bl1_tzram_layout.free_base +
          (bl1_early_platform_setup cb uc br bl1_rw_base bl1_rw_size
          bl1_ram_base bl1_ram_limit st).bl1_tzram_layout.free_size →
       ¬ (bl1_ram_base ≤ a ∧ a < bl1_ram_limit)) ∧
    (bl1_early_platform_setup cb uc br bl1_rw_base bl1_rw_size
       bl1_ram_base bl1_ram_limit st).bl1_tzram_layout.free_size =
      bl1_rw_size - (bl1_ram_limit - bl1_ram_base) := by
  by_cases hc : bl1_ram_base = bl1_rw_base
  · constructor
    · intro a ha1 ha2 hov
      simp [bl1_early_platform_setup, reserve_mem, hc] at ha1 ha2
      omega
    · simp [bl1_early_platform_setup, reserve_mem, hc]
  · have htop : bl1_ram_limit = bl1_rw_base + bl1_rw_size := by
      rcases hend with h | h
      · exact absurd h hc
      · exact h
    constructor
    · intro a ha1 ha2 hov
      simp [bl1_early_platform_setup, reserve_mem, hc] at ha1 ha2
      omega
    · simp [bl1_early_platform_setup, reserve_mem, hc]

/-- Witness for C2: RW region `[100, 150)`, stage footprint `[100, 120)`;
the resulting free size is `50 - 20`. -/
theorem C2_free_region_reservation_witness :
    ¬ (100 ≤ 125 ∧ 125 < 120) ∧
    (bl1_early_platform_setup 0 0 0 100 50 100 120
       ⟨none, ⟨0, 0, 0, 0⟩, fun _ => 0⟩).bl1_tzram_layout.free_size =
      50 - 20 := by
  have h := C2_free_region_reservation 0 0 0 100 50 100 120
    ⟨none, ⟨0, 0, 0, 0⟩, fun _ => 0⟩
    (by decide) (by decide) (by decide) (Or.inl rfl)
  exact ⟨h.1 125 (by decide) (by decide), h.2⟩

/-- Claim C3: `bl1_plat_get_image_desc` returns exactly the first entry,
among those strictly before the first `INVALID_IMAGE_ID` sentinel, whose
id equals the argument; and `none` when no such entry matches, including
for a sentinel-only (effectively empty) table. -/
theorem C3_image_desc_lookup (descs : List image_desc) (image_id : Nat) :
    bl1_plat_get_image_desc descs image_id =
      (descs.takeWhile (fun d => d.image_id != INVALID_IMAGE_ID)).find?
        (fun d => d.image_id == image_id) := by
  induction descs with
  | nil => rfl
  | cons d rest ih =>
    by_cases hs : d.image_id = INVALID_IMAGE_ID
    · simp [bl1_plat_get_image_desc, hs]
    · by_cases hm : d.image_id = image_id
      · subst hm
        simp [bl1_plat_get_image_desc, hs, List.find?]
      · simp [bl1_plat_get_image_desc, hs, hm, List.find?, ih]

/-- Claim C10: querying `bl1_plat_get_image_desc` with `INVALID_IMAGE_ID`
returns `none` for every table: the scan stops at the first sentinel
before testing it for a match, so the sentinel itself is never returned. -/
theorem C10_invalid_image_id_lookup (descs : List image_desc) :
    bl1_plat_get_image_desc descs INVALID_IMAGE_ID = none := by
  induction descs with
  | nil => rfl
  | cons d rest ih =>
    by_cases hs : d.image_id = INVALID_IMAGE_ID
    · simp [bl1_plat_get_image_desc, hs]
    · simp [bl1_plat_get_image_desc, hs, ih]

/-- Claim C4: immediately after `bl2_plat_get_bl31_params`, every byte of
the static aggregate reads as zero; the returned pointer is the
`bl31_params` sub-field of the aggregate; and a second call after
arbitrary mutation `g` of the aggregate re-zeroes every byte. -/
theorem C4_params_block_zeroed (L : ParamsMemLayout) (mem : Nat → Nat)
    (g : (Nat → Nat) → (Nat → Nat)) (a : Nat) (ha : a < L.size) :
    (bl2_plat_get_bl31_params L mem).1 a = 0 ∧
    (bl2_plat_get_bl31_params L mem).2 = L.bl31_params_off ∧
    (bl2_plat_get_bl31_params L
        (g (bl2_plat_get_bl31_params L mem).1)).1 a = 0 := by
  refine ⟨?_, rfl, ?_⟩ <;> simp [bl2_plat_get_bl31_params, memset_zero, ha]

/-- Witness for C4: an 8-byte aggregate with `bl31_params` at offset 0,
initial contents all 7, intervening mutation adding 1 to every byte. -/
theorem C4_params_block_zeroed_witness :
    (bl2_plat_get_bl31_params ⟨8, 0, 4⟩ (fun _ => 7)).1 3 = 0 ∧
    (bl2_plat_get_bl31_params ⟨8, 0, 4⟩ (fun _ => 7)).2 = 0 ∧
    (bl2_plat_get_bl31_params ⟨8, 0, 4⟩
        (fun x => (bl2_plat_get_bl31_params ⟨8, 0, 4⟩ (fun _ => 7)).1 x + 1)).1
      3 = 0 := by
  have h := C4_params_block_zeroed ⟨8, 0, 4⟩ (fun _ => 7)
    (fun m => fun x => m x + 1) 3 (by decide)
  exact h

/-- Claim C7: `bl2_early_platform_setup` initializes the console only; its
result does not depend on the `mem_layout` argument at all, and the static
`bl2_tzram_layout` record is never written. -/
theorem C7_early_setup_ignores_layout (uart0_base uart0_clk baudrate : Nat)
    (st : LCBState) (l1 l2 : meminfo) :
    bl2_early_platform_setup uart0_base uart0_clk baudrate st l1 =
      bl2_early_platform_setup uart0_base uart0_clk baudrate st l2 ∧
    (bl2_early_platform_setup uart0_base uart0_clk baudrate st l1).bl2_tzram_layout =
      st.bl2_tzram_layout ∧
    (bl2_early_platform_setup uart0_base uart0_clk baudrate st l1).mem =
      st.mem ∧
    (bl2_early_platform_setup uart0_base uart0_clk baudrate st l1).console =
      some (uart0_base, uart0_clk, baudrate) :=
  ⟨rfl, rfl, rfl, rfl⟩

/-- Claim C8: every placeholder hook of the two modules leaves the whole
program state (hence all memory reachable through its pointer arguments)
unchanged for every input, and `bl2_plat_handle_bl30` additionally returns
0 for every input. -/
theorem C8_placeholder_hooks_identity (st : LCBState) (st1 : BL1State)
    (x y image_id ep_info : Nat) :
    bl1_plat_set_ep_info st1 image_id ep_info = st1 ∧
    bl2_platform_setup st = st ∧
    bl2_plat_arch_setup st = st ∧
    bl2_plat_flush_bl31_params st = st ∧
    bl2_plat_set_bl31_ep_info st x y = st ∧
    bl2_plat_set_bl32_ep_info st x y = st ∧
    bl2_plat_set_bl33_ep_info st x y = st ∧
    bl2_plat_get_bl30_meminfo st x = st ∧
    bl2_plat_get_bl32_meminfo st x = st ∧
    bl2_plat_get_bl33_meminfo st x = st ∧
    bl2_plat_handle_bl30 st x = (st, 0) :=
  ⟨rfl, rfl, rfl, rfl, rfl, rfl, rfl, rfl, rfl, rfl, rfl⟩

/-- Claim C9: any number of calls to `bl1_plat_sec_mem_layout` (and to
`bl2_plat_sec_mem_layout`) leaves the state exactly as it was, and every
call returns the same pointer to the (respective) static layout record. -/
theorem C9_sec_mem_layout_pure (addr1 addr2 : Nat)
    (st1 : BL1State) (st2 : LCBState) (n : Nat) :
    (callSeq (bl1_plat_sec_mem_layout addr1) st1 n).1 = st1 ∧
    (callSeq (bl1_plat_sec_mem_layout addr1) st1 n).2 =
      List.replicate n addr1 ∧
    (callSeq (bl2_plat_sec_mem_layout addr2) st2 n).1 = st2 ∧
    (callSeq (bl2_plat_sec_mem_layout addr2) st2 n).2 =
      List.replicate n addr2 := by
  have h1 := callSeq_const (bl1_plat_sec_mem_layout addr1) addr1
    (fun s => rfl) st1 n
  have h2 := callSeq_const (bl2_plat_sec_mem_layout addr2) addr2
    (fun s => rfl) st2 n
  exact ⟨by rw [h1], by rw [h1], by rw [h2], by rw [h2]⟩

/-- Claim C5: `hikey960_timer_init` (whose two poll loops are unbounded
spins, modelled by unfolding an arbitrary number of iterations) completes
for some unfolding depth if and only if some read of the reset-status
register eventually sees the TIMER9 bit clear and some read of the
enable-status register eventually sees it set; with a stuck bit no depth
completes, i.e. the loop spins forever. -/
theorem C5_timer_poll_termination (r : TimerRegs)
    (rst_reads stat_reads : Nat → Nat) :
    (∃ fuel, (hikey960_timer_init r rst_reads stat_reads fuel).2 = true) ↔
      ((∃ n, rst_reads n &&& r.timer9_bit = 0) ∧
       (∃ m, stat_reads m &&& r.timer9_bit ≠ 0)) := by
  constructor
  · rintro ⟨fuel, hf⟩
    have h := (hikey960_timer_init_true_iff r rst_reads stat_reads fuel).mp hf
    obtain ⟨n, hn, he⟩ := (poll_clear_true_iff _ _ _ _ fuel).mp h.1
    obtain ⟨m, hm, he2⟩ := (poll_set_true_iff _ _ _ _ fuel).mp h.2
    exact ⟨⟨n, by simpa using he⟩, ⟨m, by simpa using he2⟩⟩
  · rintro ⟨⟨n, hn⟩, ⟨m, hm⟩⟩
    refine ⟨n + m + 1,
      (hikey960_timer_init_true_iff r rst_reads stat_reads (n + m + 1)).mpr
        ⟨?_, ?_⟩⟩
    · exact (poll_clear_true_iff _ _ _ _ (n + m + 1)).mpr
        ⟨n, by omega, by simpa using hn⟩
    · exact (poll_set_true_iff _ _ _ _ (n + m + 1)).mpr
        ⟨m, by omega, by simpa using hm⟩

/-- Claim C6: the trace of `bl1_platform_setup` is ordered by the step
sequence clk, pmu, timer, ufs, io — no action of a later step ever
precedes an action of an earlier step — and when setup runs to completion
every one of the five steps contributes at least one action. -/
theorem C6_platform_setup_ordering (r : PlatformRegs)
    (rst_reads stat_reads : Nat → Nat) (fuel : Nat) :
    List.Pairwise stepLE (bl1_platform_setup r rst_reads stat_reads fuel).1 ∧
    ((bl1_platform_setup r rst_reads stat_reads fuel).2 = true →
      ∀ s : Step, ∃ a : Action,
        (s, a) ∈ (bl1_platform_setup r rst_reads stat_reads fuel).1) := by
  by_cases ht : (hikey960_timer_init r.timer rst_reads stat_reads fuel).2 = true
  · have htr : bl1_platform_setup r rst_reads stat_reads fuel =
        (tagged .clk (hikey960_clk_init r.timer.crg_reg_base r.crg_clkdiv3_offset) ++
          (tagged .pmu (hikey960_pmu_init r.pmu_ssi0_reg_base r.pmu_ctrl7_offset
              r.np_xo_abb_dig) ++
            (tagged .timer (hikey960_timer_init r.timer rst_reads stat_reads fuel).1 ++
              (tagged .ufs (hikey960_ufs_init r.ufs_reg_base r.ufs_desc_base
                  r.ufs_desc_size r.ufs_skipinit) ++
                tagged .io [.io_setup]))), true) := by
      simp [bl1_platform_setup, ht]
    rw [htr]
    constructor
    · refine pairwise_stepLE_tagged_append .clk _ _ ?_ ?_
      · refine pairwise_stepLE_tagged_append .pmu _ _ ?_ ?_
        · refine pairwise_stepLE_tagged_append .timer _ _ ?_ ?_
          · refine pairwise_stepLE_tagged_append .ufs _ _ ?_ ?_
            · exact pairwise_stepLE_tagged .io _
            · exact rank_lb_tagged _ .io _ (by decide)
          · refine rank_lb_append _ _ _ (rank_lb_tagged _ .ufs _ (by decide))
              (rank_lb_tagged _ .io _ (by decide))
        · refine rank_lb_append _ _ _ (rank_lb_tagged _ .timer _ (by decide))
            (rank_lb_append _ _ _ (rank_lb_tagged _ .ufs _ (by decide))
              (rank_lb_tagged _ .io _ (by decide)))
      · refine rank_lb_append _ _ _ (rank_lb_tagged _ .pmu _ (by decide))
          (rank_lb_append _ _ _ (rank_lb_tagged _ .timer _ (by decide))
            (rank_lb_append _ _ _ (rank_lb_tagged _ .ufs _ (by decide))
              (rank_lb_tagged _ .io _ (by decide))))
    · intro _ s
      cases s with
      | clk =>
        exact ⟨.write (r.timer.crg_reg_base + r.crg_clkdiv3_offset) 0xf0001000,
          List.mem_append_left _
            (mem_tagged _ _ _ (by simp [hikey960_clk_init]))⟩
      | pmu =>
        exact ⟨.clrbits (r.pmu_ssi0_reg_base + r.pmu_ctrl7_offset) r.np_xo_abb_dig,
          List.mem_append_right _ (List.mem_append_left _
            (mem_tagged _ _ _ (by simp [hikey960_pmu_init])))⟩
      | timer =>
        exact ⟨.write (r.timer.crg_reg_base + r.timer.perrstdis1) r.timer.timer9_bit,
          List.mem_append_right _ (List.mem_append_right _
            (List.mem_append_left _ (mem_tagged _ _ _
              (timer_init_trace_has_unreset r.timer rst_reads stat_reads fuel))))⟩
      | ufs =>
        exact ⟨.ufs_setup r.ufs_reg_base r.ufs_desc_base r.ufs_desc_size
            r.ufs_skipinit,
          List.mem_append_right _ (List.mem_append_right _
            (List.mem_append_right _ (List.mem_append_left _
              (mem_tagged _ _ _ (by simp [hikey960_ufs_init])))))⟩
      | io =>
        exact ⟨.io_setup,
          List.mem_append_right _ (List.mem_append_right _
            (List.mem_append_right _ (List.mem_append_right _
              (mem_tagged _ _ _ (by simp)))))⟩
  · have htr : bl1_platform_setup r rst_reads stat_reads fuel =
        (tagged .clk (hikey960_clk_init r.timer.crg_reg_base r.crg_clkdiv3_offset) ++
          (tagged .pmu (hikey960_pmu_init r.pmu_ssi0_reg_base r.pmu_ctrl7_offset
              r.np_xo_abb_dig) ++
            tagged .timer (hikey960_timer_init r.timer rst_reads stat_reads fuel).1),
         false) := by
      simp [bl1_platform_setup, ht]
    rw [htr]
    constructor
    · refine pairwise_stepLE_tagged_append .clk _ _ ?_ ?_
      · refine pairwise_stepLE_tagged_append .pmu _ _ ?_ ?_
        · exact pairwise_stepLE_tagged .timer _
        · exact rank_lb_tagged _ .timer _ (by decide)
      · refine rank_lb_append _ _ _ (rank_lb_tagged _ .pmu _ (by decide))
          (rank_lb_tagged _ .timer _ (by decide))
    · intro h
      exact absurd h (by simp)

/-- Witness for C6: with the reset-status line reading 0 and the
enable-status line reading 1, setup completes with one unfolding step and
the ufs step is present in the trace. -/
theorem C6_platform_setup_ordering_witness :
    (bl1_platform_setup ⟨⟨0, 1, 2, 3, 4, 1, 5⟩, 6, 7, 8, 9, 10, 11, 12, 13⟩
        (fun _ => 0) (fun _ => 1) 1).2 = true ∧
    ∃ a : Action, (Step.ufs, a) ∈
      (bl1_platform_setup ⟨⟨0, 1, 2, 3, 4, 1, 5⟩, 6, 7, 8, 9, 10, 11, 12, 13⟩
        (fun _ => 0) (fun _ => 1) 1).1 := by
  have h := C6_platform_setup_ordering
    ⟨⟨0, 1, 2, 3, 4, 1, 5⟩, 6, 7, 8, 9, 10, 11, 12, 13⟩
    (fun _ => 0) (fun _ => 1) 1
  exact ⟨by decide, h.2 (by decide) Step.ufs⟩

end ATF
